import Mathlib

/-!
Shallow embedding of the ForensicX integrity-checker core
(`src/forensicx/integrity_checker.py`, with the CLI glue from
`src/forensicx/cli.py`), and theorems settling the spec's claims about it.

Conventions of the embedding:
* Python dicts keyed by strings are association lists `List (String × α)`;
  `dict.get(k)` is an `Option`-valued lookup (`none` stands for Python's
  `None`), and a well-formed dict has `Nodup` keys.
* A file on disk is a `FileState`: what `open(...).read()` yields (bytes or
  an exception message) and what `os.stat` yields (size and mtime, or an
  exception message).
* A filesystem to scan is a root flag plus the walked (relative-path, state)
  pairs; `os.walk` over a missing or non-directory root raises nothing and
  yields nothing, so an invalid root makes the walk produce the empty list.
* Durable storage of the baseline is an explicit `Option BaselineDoc`
  threaded through the orchestrator functions.
* Timestamps (`datetime.now()`) are explicit `String` parameters.
-/

namespace ForensicX

/-- A Python string-to-string dict as an association list. -/
abbrev Dict := List (String × String)

/-- `d.get(k)`: first binding of `k`, `none` when absent (Python `None`). -/
def dget (d : Dict) (k : String) : Option String :=
  (d.find? fun kv => kv.1 == k).map Prod.snd

/-- One entry of a baseline's `files` mapping, as `generate_baseline`
builds it: the hash dict, `st_size` and the formatted `st_mtime`. -/
structure FileRecord where
  hashes : Dict
  size : Nat
  mtime : String
deriving DecidableEq, Repr

/-- The `files` mapping of a baseline document: relative path to record. -/
abbrev Records := List (String × FileRecord)

/-- `files.get(path)` over a records mapping. -/
def rget (r : Records) (path : String) : Option FileRecord :=
  (r.find? fun kv => kv.1 == path).map Prod.snd

/-- The keys of a records mapping, in insertion order. -/
def rkeys (r : Records) : List String := r.map Prod.fst

/-- The baseline document `generate_baseline` returns (and the shape
`verify_integrity` loads back from the baseline file). -/
structure BaselineDoc where
  timestamp : String
  mount_point : String
  files : Records
  errors : List String
deriving DecidableEq, Repr

instance {α β : Type} [DecidableEq α] [DecidableEq β] : DecidableEq (Except α β) :=
  fun x y =>
    match x, y with
    | .ok a, .ok b =>
        if h : a = b then isTrue (by rw [h]) else isFalse (by simp [h])
    | .error a, .error b =>
        if h : a = b then isTrue (by rw [h]) else isFalse (by simp [h])
    | .ok _, .error _ => isFalse (by simp)
    | .error _, .ok _ => isFalse (by simp)

/-- What `open(file_path, 'rb')` + `f.read()` and `os.stat(file_path)` do
for one file: each either succeeds or raises (the `String` is `str(e)`). -/
structure FileState where
  readData : Except String (List Nat)
  statData : Except String (Nat × String)
deriving DecidableEq, Repr

/-- The tree `os.walk(mount_point)` enumerates: when the root is missing or
not a directory, `os.walk` suppresses the scandir error and yields nothing. -/
structure Filesystem where
  rootOk : Bool
  entries : List (String × FileState)
deriving DecidableEq, Repr

/-- `DEFAULT_HASH_ALGORITHMS` of the source. -/
def DEFAULT_HASH_ALGORITHMS : List String := ["md5", "sha256"]

/-- `calculate_file_hashes`. The source initializes hash objects for the
supported algorithms and updates them over the file's chunks, but never
copies any hexdigest into the `hashes` dict it returns: on a successful read
the result is the empty dict, and when open/read raises, the exception is
caught and the result is the single binding `error ↦ str(e)`. The
`algorithms` argument therefore never influences the result (unsupported
names only produce a log warning). -/
def calculate_file_hashes (algorithms : List String) (file : FileState) : Dict :=
  let _ := algorithms
  match file.readData with
  | Except.ok _ => []
  | Except.error e => [("error", e)]

/-- The per-file body of `generate_baseline`'s walk loop: compute the hash
dict (which never raises), then `os.stat`; a raise there is caught, logged,
and appended to the document's `errors` instead of adding a record. -/
def scanStep (acc : Records × List String) (entry : String × FileState) :
    Records × List String :=
  let hashes := calculate_file_hashes DEFAULT_HASH_ALGORITHMS entry.2
  match entry.2.statData with
  | Except.ok (size, mtime) =>
      (acc.1 ++ [(entry.1, { hashes := hashes, size := size, mtime := mtime })], acc.2)
  | Except.error e =>
      (acc.1, acc.2 ++ ["Error processing " ++ entry.1 ++ ": " ++ e])

/-- `generate_baseline(mount_point)` without an `output_file` (the only way
`verify_integrity` calls it): walk the tree and build the document. The
walk itself raises nothing in this model, so the outer `except` that would
append an `Error walking filesystem` message never fires; an invalid root
simply yields an empty walk. -/
def generate_baseline (ts mount_point : String) (fs : Filesystem) : BaselineDoc :=
  let walked := if fs.rootOk then fs.entries else []
  let r := walked.foldl scanStep ([], [])
  { timestamp := ts, mount_point := mount_point, files := r.1, errors := r.2 }

/-! ### The differencer (`verify_integrity`, lines 162–221) -/

/-- The unchanged test of line 174–175:
`current_hashes.get('md5') == previous_hashes.get('md5') and
 current_hashes.get('sha256') == previous_hashes.get('sha256')`.
Only these two fixed algorithm names are consulted; an absent name reads as
`None` on its side of the comparison. -/
def hashesMatch (previous_hashes current_hashes : Dict) : Bool :=
  dget current_hashes "md5" == dget previous_hashes "md5" &&
  dget current_hashes "sha256" == dget previous_hashes "sha256"

/-- The `changes` list of a modification entry (lines 187–194): `size` when
the sizes differ, then each of `md5`, `sha256` that is present in both hash
dicts with differing values. -/
def computeChanges (previous_info current_info : FileRecord) : List String :=
  (if current_info.size ≠ previous_info.size then ["size"] else []) ++
  (["md5", "sha256"].filter fun algo =>
    ((dget previous_info.hashes algo).isSome &&
     (dget current_info.hashes algo).isSome) &&
    dget previous_info.hashes algo != dget current_info.hashes algo)

/-- One element of the report's `modified` list. -/
structure Modification where
  path : String
  previous : FileRecord
  current : FileRecord
  changes : List String
deriving DecidableEq, Repr

/-- One element of the report's `missing` list: `{'path': ..., 'info': ...}`. -/
structure PathInfo where
  path : String
  info : FileRecord
deriving DecidableEq, Repr

/-- One element of the report's `new` list. When no previous baseline file
exists the source stores bare path strings (line 151); in the diff branch it
stores `{'path': ..., 'info': ...}` dicts (lines 201–204). -/
inductive NewEntry where
  | bare (path : String)
  | withInfo (path : String) (info : FileRecord)
deriving DecidableEq, Repr

/-- The path carried by a `new` entry of either shape. -/
def NewEntry.path : NewEntry → String
  | .bare p => p
  | .withInfo p _ => p

/-- The report's `files` object. -/
structure FilesReport where
  unchanged : List String
  modified : List Modification
  new : List NewEntry
  missing : List PathInfo
deriving DecidableEq, Repr

/-- The report's `summary` object. -/
structure Summary where
  total_files : Nat
  unchanged_files : Nat
  modified_files : Nat
  new_files : Nat
  missing_files : Nat
deriving DecidableEq, Repr

/-- What the intersection loop contributes to `unchanged` for one current
binding: its path, when the path is also in `previous` and the records pass
`hashesMatch`. -/
def unchangedEntry (previous_files : Records) (pc : String × FileRecord) :
    Option String :=
  match rget previous_files pc.1 with
  | some previous_info =>
      if hashesMatch previous_info.hashes pc.2.hashes then some pc.1 else none
  | none => none

/-- What the intersection loop contributes to `modified` for one current
binding: a modification entry, when the path is also in `previous` and the
records fail `hashesMatch`. -/
def modifiedEntry (previous_files : Records) (pc : String × FileRecord) :
    Option Modification :=
  match rget previous_files pc.1 with
  | some previous_info =>
      if hashesMatch previous_info.hashes pc.2.hashes then none
      else some { path := pc.1, previous := previous_info, current := pc.2,
                  changes := computeChanges previous_info pc.2 }
  | none => none

/-- The `unchanged` list: intersection paths (iterated in the current
document's key order) whose records pass `hashesMatch`. -/
def unchangedOf (previous_files current_files : Records) : List String :=
  current_files.filterMap (unchangedEntry previous_files)

/-- The `modified` list: intersection paths failing `hashesMatch`, each with
its two records and `changes`. -/
def modifiedOf (previous_files current_files : Records) : List Modification :=
  current_files.filterMap (modifiedEntry previous_files)

/-- The `new` list of the diff branch: paths only in `current`, with info. -/
def newOf (previous_files current_files : Records) : List NewEntry :=
  (current_files.filter fun pc => (rget previous_files pc.1).isNone).map
    fun pc => NewEntry.withInfo pc.1 pc.2

/-- The `missing` list: paths only in `previous`, with their old info. -/
def missingOf (previous_files current_files : Records) : List PathInfo :=
  (previous_files.filter fun pc => (rget current_files pc.1).isNone).map
    fun pc => { path := pc.1, info := pc.2 }

/-- The differencer proper: lines 162–221 of `verify_integrity`, as a
function of the two documents' `files` mappings. Each summary counter is
incremented exactly when its list gains an element, so it equals that list's
length; `total_files` is the tally of line 216. -/
def diffCore (previous_files current_files : Records) : FilesReport × Summary :=
  let f : FilesReport :=
    { unchanged := unchangedOf previous_files current_files
      modified := modifiedOf previous_files current_files
      new := newOf previous_files current_files
      missing := missingOf previous_files current_files }
  (f, { total_files := f.unchanged.length + f.modified.length +
          f.new.length + f.missing.length
        unchanged_files := f.unchanged.length
        modified_files := f.modified.length
        new_files := f.new.length
        missing_files := f.missing.length })

/-- The full result object `verify_integrity` returns. -/
structure VerificationResults where
  timestamp : String
  mount_point : String
  baseline_file : String
  files : FilesReport
  summary : Summary
  errors : List String
deriving DecidableEq, Repr

/-- `verify_integrity(mount_point, baseline_file)`: rescan the tree, then
either report `baseline not found` with every current path listed bare under
`new` (lines 147–152), or load the stored document and run the differencer.
`store` is the content of `baseline_file` (`none` = the file does not
exist); `ts` is the `datetime.now()` stamped into the result. -/
def verify_integrity (ts mount_point baseline_file : String) (fs : Filesystem)
    (store : Option BaselineDoc) : VerificationResults :=
  let current_files := (generate_baseline ts mount_point fs).files
  match store with
  | none =>
      { timestamp := ts, mount_point := mount_point, baseline_file := baseline_file
        files := { unchanged := [], modified := []
                   new := (rkeys current_files).map NewEntry.bare, missing := [] }
        summary := { total_files := current_files.length
                     unchanged_files := 0, modified_files := 0
                     new_files := current_files.length, missing_files := 0 }
        errors := ["Previous baseline file not found: " ++ baseline_file] }
  | some previous_baseline =>
      let d := diffCore previous_baseline.files current_files
      { timestamp := ts, mount_point := mount_point, baseline_file := baseline_file
        files := d.1, summary := d.2, errors := [] }

/-- A `verify_integrity` call together with the state of the baseline file
after it. No statement in `verify_integrity` writes `baseline_file` — its
internal `generate_baseline(mount_point)` call passes no `output_file` — so
the stored document after the call is the stored document before it. -/
def verify_integrity_run (ts mount_point baseline_file : String) (fs : Filesystem)
    (store : Option BaselineDoc) : VerificationResults × Option BaselineDoc :=
  (verify_integrity ts mount_point baseline_file fs store, store)

/-- The integrity step of `cli.py` `main` (lines 88–106): when no baseline
file exists, create one with `generate_baseline(mount, baseline_file)` and
save it — running no verification at all; when one exists, keep it as is
and run `verify_integrity` against it. Returns the verification report (if
any) and the baseline file's content after the step. -/
def cli_integrity_step (ts mount baseline_file : String) (fs : Filesystem)
    (store : Option BaselineDoc) : Option VerificationResults × Option BaselineDoc :=
  match store with
  | none => (none, some (generate_baseline ts mount fs))
  | some _ =>
      (some (verify_integrity ts mount baseline_file fs store), store)

/-- Whether a `new` entry is a bare path string (first-run shape) rather
than a `{'path', 'info'}` record (diff-branch shape). -/
def NewEntry.isBare : NewEntry → Bool
  | .bare _ => true
  | .withInfo _ _ => false

/-! ### Helper lemmas about dict lookup -/

lemma rget_cons (q : String × FileRecord) (l : Records) (p : String) :
    rget (q :: l) p = if q.1 == p then some q.2 else rget l p := by
  cases h : q.1 == p with
  | true => simp [rget, List.find?_cons_of_pos, h]
  | false => simp [rget, List.find?_cons_of_neg, h]

/-- A key that appears in a mapping with `Nodup` keys looks up to its record. -/
lemma rget_eq_some_of_mem_nodup {l : Records} {p : String} {r : FileRecord}
    (hnd : (rkeys l).Nodup) (hm : (p, r) ∈ l) : rget l p = some r := by
  induction l with
  | nil => cases hm
  | cons q tl ih =>
      rw [rget_cons]
      rcases List.mem_cons.mp hm with heq | htl
      · subst heq
        simp
      · have hndtl : (rkeys tl).Nodup := by
          simpa [rkeys] using (List.nodup_cons.mp (by simpa [rkeys] using hnd)).2
        cases hq : q.1 == p with
        | false => simpa [hq] using ih hndtl htl
        | true =>
            exfalso
            have hq' : q.1 = p := by simpa using hq
            have hnotin : q.1 ∉ rkeys tl :=
              (List.nodup_cons.mp (by simpa [rkeys] using hnd)).1
            exact hnotin (by
              rw [hq']
              exact List.mem_map.mpr ⟨(p, r), htl, rfl⟩)

/-- A successful lookup exhibits a binding of the mapping. -/
lemma mem_of_rget_eq_some {l : Records} {p : String} {r : FileRecord}
    (h : rget l p = some r) : (p, r) ∈ l := by
  obtain ⟨a, hfind, hsnd⟩ := Option.map_eq_some'.mp h
  have hpa : (a.1 == p) = true := by simpa using List.find?_some hfind
  have hmem := List.mem_of_find?_eq_some hfind
  have : a = (p, r) := by
    obtain ⟨a1, a2⟩ := a
    simp_all
  rwa [this] at hmem

/-- Looking up the key of any element of the mapping succeeds. -/
lemma rget_isSome_of_mem {l : Records} {pc : String × FileRecord} (hm : pc ∈ l) :
    (rget l pc.1).isSome := by
  have h : (List.find? (fun kv => kv.1 == pc.1) l).isSome :=
    List.find?_isSome.mpr ⟨pc, hm, by simp⟩
  obtain ⟨a, ha⟩ := Option.isSome_iff_exists.mp h
  simp [rget, ha]

lemma filterMap_eq_map_of_forall {α β : Type} (l : List α) (f : α → Option β)
    (g : α → β) (h : ∀ a ∈ l, f a = some (g a)) : l.filterMap f = l.map g := by
  induction l with
  | nil => rfl
  | cons x xs ih =>
      rw [List.filterMap_cons, h x (List.mem_cons_self x xs), List.map_cons,
        ih fun a ha => h a (List.mem_cons_of_mem x ha)]

/-! ### Claims about the differencer and orchestrator -/

/-- C3: for every verification report — the baseline-missing one included —
the summary's total equals the sum of the four category counts, and each
count equals the length of its category's list. -/
theorem C3_summary_total_is_sum (ts mount bfile : String) (fs : Filesystem)
    (store : Option BaselineDoc) :
    ((verify_integrity ts mount bfile fs store).summary.total_files =
      (verify_integrity ts mount bfile fs store).summary.unchanged_files +
      (verify_integrity ts mount bfile fs store).summary.modified_files +
      (verify_integrity ts mount bfile fs store).summary.new_files +
      (verify_integrity ts mount bfile fs store).summary.missing_files) ∧
    (verify_integrity ts mount bfile fs store).summary.unchanged_files =
      (verify_integrity ts mount bfile fs store).files.unchanged.length ∧
    (verify_integrity ts mount bfile fs store).summary.modified_files =
      (verify_integrity ts mount bfile fs store).files.modified.length ∧
    (verify_integrity ts mount bfile fs store).summary.new_files =
      (verify_integrity ts mount bfile fs store).files.new.length ∧
    (verify_integrity ts mount bfile fs store).summary.missing_files =
      (verify_integrity ts mount bfile fs store).files.missing.length := by
  cases store with
  | none => simp [verify_integrity, rkeys]
  | some prev => simp [verify_integrity, diffCore]

/-- C9: swapping the two documents turns `added` into `missing` and back —
the paths listed under `new` by `diff(A,B)` are exactly the paths listed
under `missing` by `diff(B,A)`, and symmetrically. -/
theorem C9_added_missing_swap (A B : BaselineDoc) :
    ((diffCore A.files B.files).1.new.map NewEntry.path =
      (diffCore B.files A.files).1.missing.map PathInfo.path) ∧
    ((diffCore A.files B.files).1.missing.map PathInfo.path =
      (diffCore B.files A.files).1.new.map NewEntry.path) := by
  constructor <;>
    simp [diffCore, newOf, missingOf, List.map_map, Function.comp_def, NewEntry.path]

/-- A file whose read and stat both succeed (content `[1]`, size 1). -/
def okFile : FileState := { readData := Except.ok [1], statData := Except.ok (1, "mt") }

/-- A tree under an invalid root (missing or not a directory). -/
def badRootFs : Filesystem := { rootOk := false, entries := [("x", okFile)] }

/-- An empty, valid tree. -/
def emptyFs : Filesystem := { rootOk := true, entries := [] }

/-- An empty stored baseline document. -/
def emptyDoc : BaselineDoc :=
  { timestamp := "t0", mount_point := "m", files := [], errors := [] }

/-- C5 counterexample: for a root that is invalid (missing or not a
directory), `generate_baseline` does not fail at all — `os.walk` yields
nothing, and the call returns an ordinary baseline document with empty
records and, contrary to the claimed fatal `RootScanFailure`, not even a
recorded error. -/
theorem C5_counterexample :
    generate_baseline "t" "m" badRootFs =
      { timestamp := "t", mount_point := "m", files := [], errors := [] } := by
  rfl

/-- C5 amended: building a snapshot from a missing or non-directory root is
not fatal and surfaces no failure value: whatever the tree would have held,
the returned document has empty records and empty scan errors. -/
theorem C5_amended_invalid_root_silent (ts mount : String)
    (entries : List (String × FileState)) :
    (generate_baseline ts mount { rootOk := false, entries := entries }).files = [] ∧
    (generate_baseline ts mount { rootOk := false, entries := entries }).errors = [] := by
  simp [generate_baseline]

/-- C7 counterexample: two verification runs over the same pair of
documents at different wall-clock instants return different reports — the
report embeds `datetime.now()`, so it is not reproducible from the two
documents alone. -/
theorem C7_counterexample :
    verify_integrity "2024-01-01T00:00:00" "m" "b" emptyFs (some emptyDoc) ≠
      verify_integrity "2024-01-02T00:00:00" "m" "b" emptyFs (some emptyDoc) := by
  decide

/-- C7 amended: apart from the embedded run timestamp, the report is a
deterministic function of its inputs — two runs at any two instants over the
same tree and stored baseline agree on `files`, `summary`, `errors`,
`mount_point` and `baseline_file`. -/
theorem C7_amended_deterministic_but_timestamp (ts1 ts2 mount bfile : String)
    (fs : Filesystem) (store : Option BaselineDoc) :
    (verify_integrity ts1 mount bfile fs store).files =
      (verify_integrity ts2 mount bfile fs store).files ∧
    (verify_integrity ts1 mount bfile fs store).summary =
      (verify_integrity ts2 mount bfile fs store).summary ∧
    (verify_integrity ts1 mount bfile fs store).errors =
      (verify_integrity ts2 mount bfile fs store).errors ∧
    (verify_integrity ts1 mount bfile fs store).mount_point =
      (verify_integrity ts2 mount bfile fs store).mount_point ∧
    (verify_integrity ts1 mount bfile fs store).baseline_file =
      (verify_integrity ts2 mount bfile fs store).baseline_file := by
  cases store with
  | none => simp [verify_integrity, generate_baseline]
  | some prev => simp [verify_integrity, generate_baseline]

/-- A one-file tree whose single file reads and stats successfully. -/
def oneFileFs : Filesystem := { rootOk := true, entries := [("a.txt", okFile)] }

/-- C4 counterexample: with no stored baseline and one readable file, the
verification run returns the all-new report but leaves the baseline storage
empty — nothing is created or persisted, contrary to the claim. -/
theorem C4_counterexample :
    (verify_integrity_run "t" "m" "b" oneFileFs none).2 = none ∧
    (verify_integrity_run "t" "m" "b" oneFileFs none).1.files.new =
      [NewEntry.bare "a.txt"] := by
  constructor <;> rfl

/-- C4 amended: when no baseline exists at the locator, `verify_integrity`
returns a report with a baseline-not-found error, every current path listed
(bare) under `new` and the other categories empty, but persists nothing;
creating and saving a first baseline is done separately by the CLI, which
then returns no verification report at all. -/
theorem C4_amended_no_baseline_behavior (ts mount bfile : String) (fs : Filesystem) :
    (verify_integrity_run ts mount bfile fs none).2 = none ∧
    (verify_integrity_run ts mount bfile fs none).1.files.new =
      (rkeys (generate_baseline ts mount fs).files).map NewEntry.bare ∧
    (verify_integrity_run ts mount bfile fs none).1.files.unchanged = [] ∧
    (verify_integrity_run ts mount bfile fs none).1.files.modified = [] ∧
    (verify_integrity_run ts mount bfile fs none).1.files.missing = [] ∧
    (verify_integrity_run ts mount bfile fs none).1.errors =
      ["Previous baseline file not found: " ++ bfile] ∧
    cli_integrity_step ts mount bfile fs none =
      (none, some (generate_baseline ts mount fs)) := by
  refine ⟨rfl, rfl, rfl, rfl, rfl, rfl, rfl⟩

/-- C10: the shape of `new` entries depends on the mode — with no stored
baseline every `new` entry is a bare path string, while against a stored
baseline every `new` entry is a `{'path', 'info'}` record. -/
theorem C10_new_entry_shape (ts mount bfile : String) (fs : Filesystem)
    (prev : BaselineDoc) :
    (verify_integrity ts mount bfile fs none).files.new.all NewEntry.isBare = true ∧
    (verify_integrity ts mount bfile fs (some prev)).files.new.all
      (fun e => ! NewEntry.isBare e) = true := by
  constructor
  · show ((rkeys (generate_baseline ts mount fs).files).map NewEntry.bare).all
        NewEntry.isBare = true
    refine List.all_eq_true.mpr fun a ha => ?_
    obtain ⟨x, _, rfl⟩ := List.mem_map.mp ha
    rfl
  · show ((newOf prev.files (generate_baseline ts mount fs).files).all
        fun e => ! NewEntry.isBare e) = true
    refine List.all_eq_true.mpr fun a ha => ?_
    obtain ⟨x, _, rfl⟩ := List.mem_map.mp ha
    rfl

lemma unchangedEntry_none (P : Records) (pc : String × FileRecord)
    (hr : rget P pc.1 = none) : unchangedEntry P pc = none := by
  simp only [unchangedEntry, hr]

lemma unchangedEntry_some (P : Records) (pc : String × FileRecord)
    (prev : FileRecord) (hr : rget P pc.1 = some prev) :
    unchangedEntry P pc =
      if hashesMatch prev.hashes pc.2.hashes then some pc.1 else none := by
  simp only [unchangedEntry, hr]

lemma modifiedEntry_none (P : Records) (pc : String × FileRecord)
    (hr : rget P pc.1 = none) : modifiedEntry P pc = none := by
  simp only [modifiedEntry, hr]

lemma modifiedEntry_some (P : Records) (pc : String × FileRecord)
    (prev : FileRecord) (hr : rget P pc.1 = some prev) :
    modifiedEntry P pc =
      if hashesMatch prev.hashes pc.2.hashes then none
      else some { path := pc.1, previous := prev, current := pc.2,
                  changes := computeChanges prev pc.2 } := by
  simp only [modifiedEntry, hr]

/-- A record that appears with its own key in a `Nodup`-keyed mapping is
the one its key looks up. -/
lemma rec_unique {C : Records} (hndC : (rkeys C).Nodup) {pc : String × FileRecord}
    (hm : pc ∈ C) {rc : FileRecord} (hc : rget C pc.1 = some rc) : pc.2 = rc := by
  have h1 : rget C pc.1 = some pc.2 :=
    rget_eq_some_of_mem_nodup hndC (show (pc.1, pc.2) ∈ C from hm)
  rw [h1] at hc
  exact Option.some.inj hc

/-- Matching records always pass `hashesMatch` against themselves. -/
lemma hashesMatch_self (d : Dict) : hashesMatch d d = true := by
  simp [hashesMatch]

/-- C8: diffing a baseline document against itself yields empty `modified`,
`new` and `missing` lists, and an `unchanged` list equal to the document's
recorded paths. -/
theorem C8_diff_self (A : BaselineDoc) (h : (rkeys A.files).Nodup) :
    (diffCore A.files A.files).1.modified = [] ∧
    (diffCore A.files A.files).1.new = [] ∧
    (diffCore A.files A.files).1.missing = [] ∧
    (diffCore A.files A.files).1.unchanged = rkeys A.files := by
  have hlook : ∀ pc ∈ A.files, rget A.files pc.1 = some pc.2 := fun pc hm =>
    rget_eq_some_of_mem_nodup h (show (pc.1, pc.2) ∈ A.files from hm)
  refine ⟨?_, ?_, ?_, ?_⟩
  · show modifiedOf A.files A.files = []
    refine List.filterMap_eq_nil_iff.mpr fun pc hm => ?_
    rw [modifiedEntry, hlook pc hm]
    simp [hashesMatch_self]
  · show newOf A.files A.files = []
    rw [newOf, List.filter_eq_nil_iff.mpr fun pc hm => by
      simp [hlook pc hm]]
    rfl
  · show missingOf A.files A.files = []
    rw [missingOf, List.filter_eq_nil_iff.mpr fun pc hm => by
      simp [hlook pc hm]]
    rfl
  · show unchangedOf A.files A.files = rkeys A.files
    rw [unchangedOf, rkeys]
    refine filterMap_eq_map_of_forall _ _ _ fun pc hm => ?_
    rw [unchangedEntry, hlook pc hm]
    simp [hashesMatch_self]

/-- Previous record for the C1 scenario: sizes differ, digests agree. -/
def rpC1 : FileRecord := ⟨[("md5", "h1"), ("sha256", "h2")], 10, "mt1"⟩

/-- Current record for the C1 scenario: sizes differ, digests agree. -/
def rcC1 : FileRecord := ⟨[("md5", "h1"), ("sha256", "h2")], 12, "mt2"⟩

/-- Previous `files` mapping for the C1 scenario. -/
def prevC1 : Records := [("a.txt", rpC1)]

/-- Current `files` mapping for the C1 scenario. -/
def curC1 : Records := [("a.txt", rcC1)]

/-- C1 counterexample: the two records at `a.txt` have different sizes
(10 vs 12) but identical md5 and sha256, and the differencer classifies the
path as `unchanged`, not `modified` — differing sizes alone never produce a
`modified` classification. -/
theorem C1_counterexample :
    (rget prevC1 "a.txt").map FileRecord.size ≠
      (rget curC1 "a.txt").map FileRecord.size ∧
    (diffCore prevC1 curC1).1.modified = [] ∧
    (diffCore prevC1 curC1).1.unchanged = ["a.txt"] := by
  decide

/-- C1 amended: a path present in both documents is classified `unchanged`
exactly when the records agree on the optional md5 value and on the optional
sha256 value (absence on both sides matches, absence on one side
mismatches), and `modified` exactly otherwise; sizes and any other algorithm
play no role in the classification. -/
theorem C1_amended_md5_sha256_only (P C : Records) (p : String) (rp rc : FileRecord)
    (hndC : (rkeys C).Nodup) (hp : rget P p = some rp) (hc : rget C p = some rc) :
    (p ∈ (diffCore P C).1.unchanged ↔
      (dget rc.hashes "md5" = dget rp.hashes "md5" ∧
       dget rc.hashes "sha256" = dget rp.hashes "sha256")) ∧
    (p ∈ (diffCore P C).1.modified.map Modification.path ↔
      ¬(dget rc.hashes "md5" = dget rp.hashes "md5" ∧
        dget rc.hashes "sha256" = dget rp.hashes "sha256")) := by
  have hmatch : hashesMatch rp.hashes rc.hashes = true ↔
      (dget rc.hashes "md5" = dget rp.hashes "md5" ∧
       dget rc.hashes "sha256" = dget rp.hashes "sha256") := by
    simp [hashesMatch]
  have hmemC : (p, rc) ∈ C := mem_of_rget_eq_some hc
  constructor
  · constructor
    · intro h
      obtain ⟨pc, hm, hf⟩ := List.mem_filterMap.mp h
      cases hr : rget P pc.1 with
      | none => rw [unchangedEntry_none P pc hr] at hf; cases hf
      | some prev =>
          rw [unchangedEntry_some P pc prev hr] at hf
          cases hb : hashesMatch prev.hashes pc.2.hashes with
          | false => rw [hb] at hf; simp at hf
          | true =>
              rw [hb] at hf
              simp only [if_true, reduceIte, Option.some.injEq] at hf
              subst hf
              have hprev : prev = rp := by
                rw [hr] at hp
                exact Option.some.inj hp
              have hcur : pc.2 = rc := rec_unique hndC hm hc
              rw [hprev, hcur] at hb
              exact hmatch.mp hb
    · intro hev
      refine List.mem_filterMap.mpr ⟨(p, rc), hmemC, ?_⟩
      rw [unchangedEntry_some P (p, rc) rp hp]
      rw [if_pos (hmatch.mpr hev)]
  · constructor
    · intro h
      obtain ⟨m, hmm, hpath⟩ := List.mem_map.mp h
      obtain ⟨pc, hm, hf⟩ := List.mem_filterMap.mp hmm
      cases hr : rget P pc.1 with
      | none => rw [modifiedEntry_none P pc hr] at hf; cases hf
      | some prev =>
          rw [modifiedEntry_some P pc prev hr] at hf
          cases hb : hashesMatch prev.hashes pc.2.hashes with
          | true => rw [hb] at hf; simp at hf
          | false =>
              rw [hb] at hf
              simp only [Bool.false_eq_true, if_false, Option.some.injEq] at hf
              have hpp : pc.1 = p := by rw [← hpath, ← hf]
              subst hpp
              have hprev : prev = rp := by
                rw [hr] at hp
                exact Option.some.inj hp
              have hcur : pc.2 = rc := rec_unique hndC hm hc
              rw [hprev, hcur] at hb
              intro heq
              rw [hmatch.mpr heq] at hb
              cases hb
    · intro hev
      have hb : hashesMatch rp.hashes rc.hashes = false := by
        cases hx : hashesMatch rp.hashes rc.hashes with
        | true => exact absurd (hmatch.mp hx) hev
        | false => rfl
      refine List.mem_map.mpr ⟨⟨p, rp, rc, computeChanges rp rc⟩, ?_, rfl⟩
      refine List.mem_filterMap.mpr ⟨(p, rc), hmemC, ?_⟩
      rw [modifiedEntry_some P (p, rc) rp hp]
      rw [if_neg (by rw [hb]; exact Bool.false_ne_true)]

/-- C1 amended, instantiated at the concrete records of the counterexample
scenario, every hypothesis discharged by computation. -/
theorem C1_amended_witness :
    ("a.txt" ∈ (diffCore prevC1 curC1).1.unchanged ↔
      (dget rcC1.hashes "md5" = dget rpC1.hashes "md5" ∧
       dget rcC1.hashes "sha256" = dget rpC1.hashes "sha256")) ∧
    ("a.txt" ∈ (diffCore prevC1 curC1).1.modified.map Modification.path ↔
      ¬(dget rcC1.hashes "md5" = dget rpC1.hashes "md5" ∧
        dget rcC1.hashes "sha256" = dget rpC1.hashes "sha256")) :=
  C1_amended_md5_sha256_only prevC1 curC1 "a.txt" rpC1 rcC1
    (by decide) (by decide) (by decide)

/-- A one-record baseline document used to instantiate C8. -/
def docW : BaselineDoc :=
  ⟨"t", "m", [("a.txt", ⟨[("md5", "h1"), ("sha256", "h2")], 10, "mt"⟩)], []⟩

/-- C8 witness: the self-diff facts at a concrete one-record document. -/
theorem C8_diff_self_witness :
    (diffCore docW.files docW.files).1.modified = [] ∧
    (diffCore docW.files docW.files).1.new = [] ∧
    (diffCore docW.files docW.files).1.missing = [] ∧
    (diffCore docW.files docW.files).1.unchanged = rkeys docW.files :=
  C8_diff_self docW (by simp [docW, rkeys])

/-- Every element of a `changes` list is `size`, `md5` or `sha256`. -/
lemma changes_subset (rp rc : FileRecord) :
    ∀ a ∈ computeChanges rp rc, a = "size" ∨ a = "md5" ∨ a = "sha256" := by
  intro a ha
  simp only [computeChanges] at ha
  rcases List.mem_append.mp ha with h1 | h2
  · left
    by_cases hs : rc.size ≠ rp.size
    · rw [if_pos hs] at h1
      simpa using h1
    · rw [if_neg hs] at h1
      cases h1
  · right
    simpa using List.mem_of_mem_filter h2

/-- `size` appears in `changes` exactly when the sizes differ. -/
lemma size_mem_changes_iff (rp rc : FileRecord) :
    "size" ∈ computeChanges rp rc ↔ rc.size ≠ rp.size := by
  simp only [computeChanges, List.mem_append]
  constructor
  · rintro (h1 | h2)
    · by_cases hs : rc.size ≠ rp.size
      · exact hs
      · rw [if_neg hs] at h1
        cases h1
    · exfalso
      rcases (by simpa using List.mem_of_mem_filter h2 :
          ("size" : String) = "md5" ∨ ("size" : String) = "sha256") with h | h <;>
        exact absurd h (by decide)
  · intro hs
    left
    rw [if_pos hs]
    exact List.mem_singleton.mpr rfl

/-- `md5` / `sha256` appear in `changes` exactly when present in both hash
dicts with differing values. -/
lemma algo_mem_changes_iff (rp rc : FileRecord) (algo : String)
    (halgo : algo ∈ (["md5", "sha256"] : List String)) :
    algo ∈ computeChanges rp rc ↔
      ((dget rp.hashes algo).isSome ∧ (dget rc.hashes algo).isSome ∧
       dget rp.hashes algo ≠ dget rc.hashes algo) := by
  have hns : algo ≠ "size" := by
    rcases (by simpa using halgo : algo = "md5" ∨ algo = "sha256") with rfl | rfl <;>
      decide
  simp only [computeChanges, List.mem_append]
  constructor
  · rintro (h1 | h2)
    · exfalso
      apply hns
      by_cases hs : rc.size ≠ rp.size
      · rw [if_pos hs] at h1
        simpa using h1
      · rw [if_neg hs] at h1
        cases h1
    · have hpred := List.of_mem_filter h2
      simp only [Bool.and_eq_true, bne_iff_ne] at hpred
      exact ⟨hpred.1.1, hpred.1.2, hpred.2⟩
  · rintro ⟨h1, h2, h3⟩
    right
    refine List.mem_filter.mpr ⟨halgo, ?_⟩
    simp [h1, h2, h3]

/-- Previous record for the C6 scenario: md5 present only on this side. -/
def rpC6 : FileRecord := ⟨[("md5", "aa"), ("sha256", "cc")], 5, "mt"⟩

/-- Current record for the C6 scenario: only sha256, equal to previous. -/
def rcC6 : FileRecord := ⟨[("sha256", "cc")], 5, "mt"⟩

/-- Previous `files` mapping for the C6 scenario. -/
def prevC6 : Records := [("a.txt", rpC6)]

/-- Current `files` mapping for the C6 scenario. -/
def curC6 : Records := [("a.txt", rcC6)]

/-- C6 counterexample: at `a.txt` the only algorithm common to both records
(sha256) matches and the sizes agree, yet the path is classified `modified`
(md5 is present in only one record, which the code treats as a mismatch),
and its `changes` list is empty — falsifying both that such a path is
`unchanged` and that a modified entry's change list is non-empty. -/
theorem C6_counterexample :
    (diffCore prevC6 curC6).1.unchanged = [] ∧
    (diffCore prevC6 curC6).1.modified.map Modification.changes = [[]] := by
  decide

/-- C6 amended: a path whose md5 or sha256 entry is one-sided is classified
`modified` even when all common algorithms and the sizes agree (see the
counterexample for classification); in every modified entry, `changes`
contains `size` exactly when the sizes differ and an algorithm name exactly
when that algorithm is present in both records with differing digests —
nothing else — and may therefore be empty. -/
theorem C6_changes_characterization (P C : Records) (m : Modification)
    (hm : m ∈ (diffCore P C).1.modified) :
    ("size" ∈ m.changes ↔ m.current.size ≠ m.previous.size) ∧
    (∀ algo ∈ (["md5", "sha256"] : List String),
      (algo ∈ m.changes ↔
        ((dget m.previous.hashes algo).isSome ∧
         (dget m.current.hashes algo).isSome ∧
         dget m.previous.hashes algo ≠ dget m.current.hashes algo))) ∧
    (∀ a ∈ m.changes, a = "size" ∨ a = "md5" ∨ a = "sha256") := by
  have hm' : m ∈ modifiedOf P C := hm
  obtain ⟨pc, hmem, hf⟩ := List.mem_filterMap.mp hm'
  cases hr : rget P pc.1 with
  | none => rw [modifiedEntry_none P pc hr] at hf; cases hf
  | some prev =>
      rw [modifiedEntry_some P pc prev hr] at hf
      cases hb : hashesMatch prev.hashes pc.2.hashes with
      | true => rw [hb] at hf; simp at hf
      | false =>
          rw [hb] at hf
          simp only [Bool.false_eq_true, if_false, Option.some.injEq] at hf
          subst hf
          exact ⟨size_mem_changes_iff prev pc.2,
            fun algo halgo => algo_mem_changes_iff prev pc.2 algo halgo,
            changes_subset prev pc.2⟩

/-- The modification entry the differencer produces in the C6 scenario. -/
def mC6 : Modification := ⟨"a.txt", rpC6, rcC6, []⟩

/-- C6 amended, instantiated at the concrete modification entry of the C6
scenario, the membership hypothesis discharged by computation. -/
theorem C6_changes_characterization_witness :
    ("size" ∈ mC6.changes ↔ mC6.current.size ≠ mC6.previous.size) ∧
    (∀ algo ∈ (["md5", "sha256"] : List String),
      (algo ∈ mC6.changes ↔
        ((dget mC6.previous.hashes algo).isSome ∧
         (dget mC6.current.hashes algo).isSome ∧
         dget mC6.previous.hashes algo ≠ dget mC6.current.hashes algo))) ∧
    (∀ a ∈ mC6.changes, a = "size" ∨ a = "md5" ∨ a = "sha256") :=
  C6_changes_characterization prevC6 curC6 mC6 (by decide)

/-- A one-file tree whose file reads and stats successfully. -/
def okFs (p : String) (bytes : List Nat) (size : Nat) (mt : String) : Filesystem :=
  ⟨true, [(p, ⟨Except.ok bytes, Except.ok (size, mt)⟩)]⟩

/-- A one-file tree whose file fails to read (e.g. permission revoked) but
still stats successfully — `os.stat` needs directory, not read, permission. -/
def readFailFs (p e : String) (size : Nat) (mt : String) : Filesystem :=
  ⟨true, [(p, ⟨Except.error e, Except.ok (size, mt)⟩)]⟩

/-- A one-file tree whose file fails both to read and to stat (vanished). -/
def statFailFs (p e e2 : String) : Filesystem :=
  ⟨true, [(p, ⟨Except.error e, Except.error e2⟩)]⟩

/-- C2 counterexample: a file whose read fails with permission denied while
its stat still succeeds. The snapshot keeps the path in `records` (the
claim says absent), appends nothing to the scan errors (the claim says the
failure appears there), and a diff against a baseline that recorded the
path successfully classifies it `unchanged`, not `missing`. -/
theorem C2_counterexample :
    rkeys (generate_baseline "t1" "m"
        (readFailFs "f.txt" "Permission denied" 3 "mt")).files = ["f.txt"] ∧
    (generate_baseline "t1" "m"
        (readFailFs "f.txt" "Permission denied" 3 "mt")).errors = [] ∧
    (verify_integrity "t1" "m" "b" (readFailFs "f.txt" "Permission denied" 3 "mt")
        (some (generate_baseline "t0" "m"
          (okFs "f.txt" [1, 2, 3] 3 "mt")))).files.missing = [] ∧
    (verify_integrity "t1" "m" "b" (readFailFs "f.txt" "Permission denied" 3 "mt")
        (some (generate_baseline "t0" "m"
          (okFs "f.txt" [1, 2, 3] 3 "mt")))).files.unchanged = ["f.txt"] := by
  decide

/-- C2 amended: when a file's read fails but its stat succeeds, the snapshot
completes with the path still present in `records` — its hash dict reduced
to the single `error` binding — and no scan error, and a subsequent diff
against a baseline that recorded the path successfully classifies it
`unchanged` (both records' md5 and sha256 are absent), not `missing`. The
claimed behavior — path absent, failure in scan errors, diff `missing` —
occurs only when the stat fails too. -/
theorem C2_unreadable_file_behavior (ts0 ts1 mount bfile p e e2 : String)
    (bytes : List Nat) (size : Nat) (mt : String) :
    ((generate_baseline ts1 mount (readFailFs p e size mt)).files =
      [(p, ⟨[("error", e)], size, mt⟩)]) ∧
    ((generate_baseline ts1 mount (readFailFs p e size mt)).errors = []) ∧
    ((verify_integrity ts1 mount bfile (readFailFs p e size mt)
        (some (generate_baseline ts0 mount (okFs p bytes size mt)))).files.unchanged =
      [p]) ∧
    ((verify_integrity ts1 mount bfile (readFailFs p e size mt)
        (some (generate_baseline ts0 mount (okFs p bytes size mt)))).files.modified =
      []) ∧
    ((verify_integrity ts1 mount bfile (readFailFs p e size mt)
        (some (generate_baseline ts0 mount (okFs p bytes size mt)))).files.missing =
      []) ∧
    ((generate_baseline ts1 mount (statFailFs p e e2)).files = []) ∧
    ((generate_baseline ts1 mount (statFailFs p e e2)).errors =
      ["Error processing " ++ p ++ ": " ++ e2]) ∧
    ((verify_integrity ts1 mount bfile (statFailFs p e e2)
        (some (generate_baseline ts0 mount (okFs p bytes size mt)))).files.missing.map
      PathInfo.path = [p]) := by
  refine ⟨?_, ?_, ?_, ?_, ?_, ?_, ?_, ?_⟩ <;>
    simp [readFailFs, okFs, statFailFs, generate_baseline, scanStep,
      calculate_file_hashes, verify_integrity, diffCore, unchangedOf, modifiedOf,
      newOf, missingOf, unchangedEntry, modifiedEntry, rget, rkeys, dget,
      hashesMatch]

end ForensicX
